import Mathlib

/-!
Verification of the ContractIQ document-understanding and retrieval core.

This file gives a shallow embedding, in Lean, of the parts of the backend
that the specification's claims are about:

* the Redis cache facade (`src/backend/src/core/cache.py`),
* the retry/backoff layer (`src/backend/src/core/retry.py`),
* the embedding client (`src/backend/src/services/embedding_service.py`),
* the RAG retrieve/generate nodes (`src/backend/src/services/rag_pipeline.py`),
* the ingest background task (`src/backend/src/api/documents.py`),
* the upload endpoint (`src/backend/src/api/documents.py`),
* workspace deletion (`src/backend/src/api/workspaces.py`),
* the clause deduplicator (`src/backend/src/services/clause_deduplicator.py`),
* the clause extraction endpoint (`src/backend/src/api/clauses.py`).

Python floats are modeled as rationals (no claim here depends on IEEE
rounding); Python exceptions become `Except` values; remote services (LLM,
embeddings endpoint, vector store) become explicit function parameters, so
that every run of the embedded code is a pure function of its inputs.
-/

namespace ContractIQ

instance {ε α : Type _} [DecidableEq ε] [DecidableEq α] :
    DecidableEq (Except ε α) := fun a b =>
  match a, b with
  | .ok x, .ok y =>
      if h : x = y then .isTrue (by rw [h]) else .isFalse (by simp [h])
  | .error x, .error y =>
      if h : x = y then .isTrue (by rw [h]) else .isFalse (by simp [h])
  | .ok _, .error _ => .isFalse (by simp)
  | .error _, .ok _ => .isFalse (by simp)

/-- `text[:n]` (Python slicing by code points). -/
def strTake (s : String) (n : Nat) : String := (s.toList.take n).asString

/-- `str.lower()`. -/
def strLower (s : String) : String := (s.toList.map Char.toLower).asString

/-- `str.strip()`: whitespace removed from both ends. -/
def strTrim (s : String) : String :=
  (((s.toList.dropWhile Char.isWhitespace).reverse.dropWhile
      Char.isWhitespace).reverse).asString

/-! ### Cache service (`src/backend/src/core/cache.py`, class `CacheService`)

The state of the cache is its `enabled` flag (set at construction: `False`
when the Redis endpoint is unreachable) together with the key-value store.
Values are the serialized (JSON) strings held by Redis.  TTLs have no
observable effect in a model without a clock and are accepted but ignored. -/

structure CacheState where
  enabled : Bool
  store : List (String × String)
deriving DecidableEq, Repr

/-- `CacheService.get`: absent when disabled; when enabled, a lookup whose
empty-string result is treated as absent (the Python code guards
`if value:`) . -/
def cacheGet (st : CacheState) (key : String) : Option String :=
  if !st.enabled then none
  else
    match st.store.lookup key with
    | some v => if v.isEmpty then none else some v
    | none => none

/-- `CacheService.set`: reports `False` and writes nothing when disabled;
when enabled, `setex` overwrites the key and reports `True`. -/
def cacheSet (st : CacheState) (key value : String) (_ttl : Option Nat) :
    CacheState × Bool :=
  if !st.enabled then (st, false)
  else ({ st with store := (key, value) :: st.store.filter (fun p => p.1 ≠ key) }, true)

/-- `CacheService.delete`: reports `False` when disabled; when enabled,
removes the key and reports `True`. -/
def cacheDelete (st : CacheState) (key : String) : CacheState × Bool :=
  if !st.enabled then (st, false)
  else ({ st with store := st.store.filter (fun p => p.1 ≠ key) }, true)

/-- Redis glob patterns as used by the code: every pattern the services pass
ends in a trailing `*` wildcard or is a literal key. -/
def patternMatches (pattern key : String) : Bool :=
  if pattern.endsWith "*" then (pattern.dropRight 1).isPrefixOf key
  else pattern = key

/-- `CacheService.delete_pattern`: returns `0` when disabled; when enabled,
deletes all matching keys and returns how many were deleted. -/
def cacheDeletePattern (st : CacheState) (pattern : String) : CacheState × Nat :=
  if !st.enabled then (st, 0)
  else
    let hit := st.store.filter (fun p => patternMatches pattern p.1)
    ({ st with store := st.store.filter (fun p => !patternMatches pattern p.1) },
     hit.length)

/-- `CacheService.invalidate_workspace`: purge the six workspace-scoped
patterns, in the order the Python list gives them. -/
def invalidateWorkspace (st : CacheState) (workspaceId : String) : CacheState :=
  let patterns : List String :=
    [ "workspace:" ++ workspaceId ++ ":*"
    , "workspace:" ++ workspaceId ++ ":stats"
    , "workspace:" ++ workspaceId ++ ":documents"
    , "workspace:" ++ workspaceId ++ ":metadata"
    , "vector_search:" ++ workspaceId ++ ":*"
    , "document:*:workspace:" ++ workspaceId ]
  patterns.foldl (fun s p => (cacheDeletePattern s p).1) st

/-! ### Workspace deletion (`src/backend/src/api/workspaces.py`, `delete_workspace`) -/

structure WorkspaceRow where
  id : Nat
  userId : Nat
deriving DecidableEq, Repr

/-- The slice of application state `delete_workspace` touches: the
workspaces table and the cache. -/
structure WorkspacesDB where
  workspaces : List WorkspaceRow
  cache : CacheState
deriving DecidableEq, Repr

inductive ApiError where
  | notFound (resource : String) (resourceId : String)
  | httpError (statusCode : Nat) (detail : String)
deriving DecidableEq, Repr

/-- `delete_workspace`: look the row up scoped to the current user; raise
`NotFoundError` when absent; otherwise delete the row, then invalidate the
workspace caches and the user's workspace-list key. -/
def deleteWorkspace (db : WorkspacesDB) (userId wid : Nat) :
    Except ApiError Unit × WorkspacesDB :=
  match db.workspaces.find? (fun w => w.id = wid && w.userId = userId) with
  | none => (.error (.notFound "workspace" (toString wid)), db)
  | some _ =>
    let ws' := db.workspaces.filter (fun w => w.id ≠ wid)
    let c1 := invalidateWorkspace db.cache (toString wid)
    let c2 := (cacheDelete c1 ("user:" ++ toString userId ++ ":workspaces")).1
    (.ok (), { workspaces := ws', cache := c2 })

/-! ### Document upload (`src/backend/src/api/documents.py`, `upload_document`) -/

structure UploadCfg where
  allowedFileTypes : List String := ["pdf", "docx"]
  maxFileSizeMb : Nat := 50
deriving DecidableEq, Repr

inductive FileKind where
  | pdf
  | docx
deriving DecidableEq, Repr

inductive DocStatus where
  | uploaded
  | processing
  | processed
  | failed
deriving DecidableEq, Repr

/-- Splitting a character list at every occurrence of `sep` (the pieces of
`str.split(sep)`). -/
def splitOnChar (sep : Char) : List Char → List (List Char)
  | [] => [[]]
  | c :: rest =>
    let r := splitOnChar sep rest
    if c = sep then [] :: r
    else (c :: r.headD []) :: r.tail

/-- `Path(filename).suffix.lower().lstrip(".")`: the lowercased text after
the final dot, empty when the name has no dot. -/
def fileExt (filename : String) : String :=
  let parts := splitOnChar '.' filename.toList
  if parts.length ≤ 1 then ""
  else ((parts.getLastD []).map Char.toLower).asString

structure DocumentRow where
  id : Nat
  workspaceId : Nat
  fileType : FileKind
  status : DocStatus
  fileSize : Nat
deriving DecidableEq, Repr

structure UploadRequest where
  workspaceId : Nat
  filename : String
  fileSizeBytes : Nat
deriving DecidableEq, Repr

/-- `upload_document`: validate the workspace (scoped to the user), validate
the extension against `settings.allowed_file_types`, pick the document type,
write the file, and create the row in status `Uploaded`.  The source never
compares the size against `settings.max_file_size_mb`; the stored
`file_size` is simply `stat().st_size` of what was written. -/
def uploadDocument (cfg : UploadCfg) (workspaces : List WorkspaceRow)
    (userId : Nat) (req : UploadRequest) (freshId : Nat) :
    Except ApiError DocumentRow :=
  match workspaces.find? (fun w => w.id = req.workspaceId && w.userId = userId) with
  | none => .error (.httpError 404 "Workspace not found")
  | some _ =>
    let ext := fileExt req.filename
    if !cfg.allowedFileTypes.contains ext then
      .error (.httpError 400 "File type not allowed")
    else if ext = "pdf" then
      .ok { id := freshId, workspaceId := req.workspaceId, fileType := .pdf,
            status := .uploaded, fileSize := req.fileSizeBytes }
    else if ext = "docx" then
      .ok { id := freshId, workspaceId := req.workspaceId, fileType := .docx,
            status := .uploaded, fileSize := req.fileSizeBytes }
    else
      .error (.httpError 400 "Unsupported file type")

/-! ### Python exceptions (`src/backend/src/core/exceptions.py`, as the retry
and embedding layers use them) -/

inductive PyErr where
  /-- An arbitrary exception, identified by its class name and message. -/
  | exc (kind : String) (msg : String)
  /-- `ExternalServiceError(service, message, retryable)`. -/
  | externalServiceError (service : String) (msg : String) (retryable : Bool)
  /-- `RateLimitError(message, retry_after)`. -/
  | rateLimitError (msg : String) (retryAfter : Nat)
deriving DecidableEq, Repr

def PyErr.message : PyErr → String
  | .exc _ m => m
  | .externalServiceError _ m _ => m
  | .rateLimitError m _ => m

/-- Whether a surfaced error is an `ExternalServiceError` wrapper. -/
def PyErr.isExternalServiceWrap : PyErr → Bool
  | .externalServiceError _ _ _ => true
  | _ => false

/-! ### Embedding client (`src/backend/src/services/embedding_service.py`,
`EmbeddingService.get_embedding`)

The remote call (already wrapped in the retry layer) is a parameter
`remoteCall`; the embedding cache is an association list from cache key to
vector (the JSON round trip through Redis is the identity on the vector).
The deterministic fingerprint `hash_text` is modeled by the text itself,
which is a deterministic injective fingerprint. -/

abbrev EmbCache := List (String × List ℚ)

def hashText (text : String) : String := text

structure EmbedOutcome where
  result : Except PyErr (Option (List ℚ))
  cache : EmbCache
  endpointCalled : Bool
deriving Repr

/-- `EmbeddingService.get_embedding`.  `hasClient` is whether
`settings.openai_api_key` was set at construction. -/
def getEmbedding (hasClient : Bool) (cache : EmbCache)
    (remoteCall : String → Except PyErr (List ℚ))
    (text : String) (model : String) : EmbedOutcome :=
  if !hasClient || text.isEmpty then
    { result := .ok none, cache := cache, endpointCalled := false }
  else
    let key := "embedding:" ++ model ++ ":" ++ hashText text
    match cache.lookup key with
    | some v => { result := .ok (some v), cache := cache, endpointCalled := false }
    | none =>
      let truncated := if 32000 < text.length then strTake text 32000 else text
      match remoteCall truncated with
      | .ok emb =>
          { result := .ok (some emb), cache := (key, emb) :: cache,
            endpointCalled := true }
      | .error e =>
          let surfaced :=
            match e with
            | .externalServiceError s m r => PyErr.externalServiceError s m r
            | .rateLimitError m ra => PyErr.rateLimitError m ra
            | .exc _ m =>
                PyErr.externalServiceError "OpenAI Embeddings"
                  ("Unexpected error: " ++ m) false
          { result := .error surfaced, cache := cache, endpointCalled := true }

/-! ### RAG retrieve node (`src/backend/src/services/rag_pipeline.py`,
`RAGPipeline._retrieve_node`)

A search hit carries the fields the pipeline reads off the vector store's
result records: the chunk text, the denormalized metadata, and the
similarity score (which can be negative with cosine distance). -/

structure Hit where
  text : String
  documentId : String
  documentName : String
  pageNumber : Nat
  sectionName : String
  chunkId : Option String
  score : ℚ
deriving DecidableEq, Repr

instance : Inhabited Hit :=
  ⟨{ text := "", documentId := "", documentName := "", pageNumber := 0,
     sectionName := "", chunkId := none, score := 0 }⟩

def simpleGreetings : List String :=
  ["hi", "hello", "hey", "greetings", "good morning", "good afternoon",
   "good evening"]

/-- The fast pre-classification at the top of `_retrieve_node`:
`question.strip()`, then `.lower().strip()`, then the greeting test. -/
def isGreetingQuestion (question : String) : Bool :=
  let ql := strTrim (strLower (strTrim question))
  simpleGreetings.contains ql || (ql.length ≤ 3 && (ql = "hi" || ql = "hey"))

/-- Hits ranked by non-increasing similarity. -/
def hitGE (a b : Hit) : Prop := b.score ≤ a.score

instance : DecidableRel hitGE := fun a b =>
  inferInstanceAs (Decidable (b.score ≤ a.score))

instance : IsTotal Hit hitGE := ⟨fun a b => le_total b.score a.score⟩

instance : IsTrans Hit hitGE := ⟨fun _ _ _ h1 h2 => le_trans h2 h1⟩

/-- `sorted(hits, key=score, reverse=True)`: a stable descending sort by
similarity score (a stable sort with respect to a total preorder is unique,
so the stable `insertionSort` coincides with Python sorting). -/
def sortHitsByScoreDesc (l : List Hit) : List Hit :=
  l.insertionSort hitGE

def MIN_SIMILARITY_THRESHOLD : ℚ := ⟨-3, 10, by decide, by decide⟩

structure RetrieveInput where
  question : String
  documentIds : Option (List String)
deriving Repr

/-- The client-side document-id restriction applied after the search
(`if document_ids:` is Python truthiness, so `None` and `[]` both skip it). -/
def applyDocumentFilter (documentIds : Option (List String)) (results : List Hit) :
    List Hit :=
  match documentIds with
  | none => results
  | some ids =>
      if ids.isEmpty then results
      else results.filter (fun r => ids.contains r.documentId)

/-- `RAGPipeline._retrieve_node`.  `search k` stands for
`vector_store.search(..., n_results=k, ...)`; the node calls it with
`n_results = 10`. -/
def retrieveNode (search : Nat → List Hit) (inp : RetrieveInput) : List Hit :=
  if isGreetingQuestion inp.question then []
  else
    let results := applyDocumentFilter inp.documentIds (search 10)
    let filtered := results.filter (fun r => MIN_SIMILARITY_THRESHOLD < r.score)
    if filtered.isEmpty then (sortHitsByScoreDesc results).take 5
    else (sortHitsByScoreDesc filtered).take 5

/-- Modelled from the spec sentence for the retrieve step: "run C4.search
with k=10, apply the optional document-id filter client-side, drop hits with
similarity ≤ −0.3, and truncate to the top 5.  If filtering empties the set,
keep the top 5 by similarity regardless of threshold."  Used only to compare
the source translation against the specification's words. -/
def retrieveSpec (search : Nat → List Hit) (inp : RetrieveInput) : List Hit :=
  let afterDocFilter := applyDocumentFilter inp.documentIds (search 10)
  let kept := afterDocFilter.filter (fun r => !(r.score ≤ MIN_SIMILARITY_THRESHOLD))
  if kept.isEmpty then (sortHitsByScoreDesc afterDocFilter).take 5
  else (sortHitsByScoreDesc kept).take 5

/-! ### RAG generate node (`src/backend/src/services/rag_pipeline.py`,
`RAGPipeline._generate_node`, lines 395-492: the citation-validation and
answer-cleaning logic that runs after the structured LLM call succeeded with
a non-empty retrieval set)

The answer text is modeled as a list of pieces: interstitial plain text
(holding no source references) and source references in their two surface
forms `[Source k]` and bare `Source k`.  The `re.sub` deletions of invalid
references act piecewise on such a decomposition, the whitespace regexes act
only inside the plain pieces, and the final normalization regex rewrites the
remaining bare references to the bracketed form. -/

structure Citation where
  documentId : String
  documentName : String
  pageNumber : Nat
  sectionName : String
  textExcerpt : String
  similarityScore : ℚ
  chunkId : Option String
deriving DecidableEq, Repr

/-- The `Citation(...)` constructed for hit number `i` in the
`for i, chunk in enumerate(retrieved_chunks, 1)` loop: the text excerpt is
the first 500 characters. -/
def mkCitation (h : Hit) : Citation :=
  { documentId := h.documentId, documentName := h.documentName,
    pageNumber := h.pageNumber, sectionName := h.sectionName,
    textExcerpt := strTake h.text 500, similarityScore := h.score,
    chunkId := h.chunkId }

inductive AnswerPiece where
  | plain (s : String)
  | srcBracket (k : Nat)
  | srcBare (k : Nat)
deriving DecidableEq, Repr

abbrev AnswerText := List AnswerPiece

/-- The structured LLM response object (`StructuredAnswer`), as the
validation code receives it. -/
structure StructuredAnswer where
  answer : AnswerText
  citedSources : List Int
  confidence : ℚ
deriving Repr

/-- `[s for s in cited_sources if s in valid_source_nums]` with
`valid_source_nums = set(range(1, n + 1))`. -/
def validCitedSources (cited : List Int) (n : Nat) : List Int :=
  cited.filter (fun s => decide (1 ≤ s) && decide (s ≤ (n : Int)))

/-- The fallback `[i + 1 for i in range(min(3, len(sorted_citations)))]`
used when no valid citation survives. -/
def fallbackCited (n : Nat) : List Int :=
  (List.range (min 3 n)).map (fun (i : Nat) => (i : Int) + 1)

/-- `sorted(set(valid_cited_sources))`: ascending sorted distinct values. -/
def sortedDedupInt (l : List Int) : List Int :=
  List.insertionSort (fun a b => a ≤ b) l.dedup

def MIN_CITATION_SIMILARITY : ℚ := ⟨-3, 10, by decide, by decide⟩

/-- Citations ranked by non-increasing similarity. -/
def citGE (a b : Citation) : Prop := b.similarityScore ≤ a.similarityScore

instance : DecidableRel citGE := fun a b =>
  inferInstanceAs (Decidable (b.similarityScore ≤ a.similarityScore))

def sortCitationsByScoreDesc (l : List Citation) : List Citation :=
  l.insertionSort citGE

instance : Inhabited Citation :=
  ⟨{ documentId := "", documentName := "", pageNumber := 0, sectionName := "",
     textExcerpt := "", similarityScore := 0, chunkId := none }⟩

/-- The `used_citations` loop: walk the valid source numbers in ascending
order without repetition, index into `citations_data`, and keep a citation
only when its similarity clears `MIN_CITATION_SIMILARITY`. -/
def usedCitationsPass (citationsData : List Citation) (validCited : List Int) :
    List Citation :=
  (sortedDedupInt validCited).filterMap (fun s =>
    if 0 ≤ s - 1 && s - 1 < (citationsData.length : Int) then
      if MIN_CITATION_SIMILARITY
          < (citationsData.getD (s - 1).toNat default).similarityScore then
        some (citationsData.getD (s - 1).toNat default)
      else none
    else none)

/-- Deletion of the `[Source k]` / `Source k` occurrences whose number is
not among the surviving valid sources. -/
def stripInvalidRefs (validCited : List Int) (ans : AnswerText) : AnswerText :=
  ans.filter (fun p =>
    match p with
    | .plain _ => true
    | .srcBracket k => decide ((k : Int) ∈ validCited)
    | .srcBare k => decide ((k : Int) ∈ validCited))

/-- The whitespace-collapsing regex `[ \t]+ -> " "` inside a plain piece. -/
def collapseSpaceRuns (s : String) : String :=
  (s.toList.foldl (fun (acc : List Char × Bool) c =>
    if c = ' ' || c = '\t' then
      if acc.2 then acc else (acc.1 ++ [' '], true)
    else (acc.1 ++ [c], false)) ([], false)).1.asString

/-- The final `re.sub(r"\s+Source\s+(\d+)", r" [Source \1]", ...)`:
remaining bare references are rewritten to the bracketed form. -/
def normalizeRefs (ans : AnswerText) : AnswerText :=
  ans.map (fun p =>
    match p with
    | .srcBare k => .srcBracket k
    | x => x)

/-- Rendering an answer decomposition back to the flat string, to express
the Python truthiness test `if cleaned_answer`. -/
def renderAnswer (ans : AnswerText) : String :=
  ans.foldl (fun acc p =>
    match p with
    | .plain s => acc ++ s
    | .srcBracket k => acc ++ "[Source " ++ toString k ++ "]"
    | .srcBare k => acc ++ "Source " ++ toString k) ""

structure GenerateResult where
  answer : AnswerText
  citations : List Citation
deriving Repr

/-- The `valid_cited_sources` list as it stands after the fallback: the
survivors of the range filter, or `[1 .. min(3, n)]` when none survived. -/
def generateValidCited (hits : List Hit) (sa : StructuredAnswer) : List Int :=
  let n := (hits.map mkCitation).length
  let surviving := validCitedSources sa.citedSources n
  if surviving.isEmpty then fallbackCited n else surviving

/-- The `cleaned_answer` value: invalid references deleted, whitespace runs
collapsed inside the plain pieces, remaining bare references normalized to
the bracketed form. -/
def cleanedAnswer (hits : List Hit) (sa : StructuredAnswer) : AnswerText :=
  normalizeRefs ((stripInvalidRefs (generateValidCited hits sa) sa.answer).map
    (fun p =>
      match p with
      | .plain s => .plain (collapseSpaceRuns s)
      | x => x))

/-- The tail of `RAGPipeline._generate_node` for a non-empty retrieval set
`hits`, once the structured LLM call returned `sa`: validate the cited
sources, fall back to the top 3 when none survive, pick the used citations,
strip invalid references from the answer text, clean whitespace, normalize
the remaining references, and fall back to the raw LLM answer when the
cleaned text is empty (`answer = cleaned_answer if cleaned_answer else
structured_answer.answer`). -/
def generateNode (hits : List Hit) (sa : StructuredAnswer) : GenerateResult :=
  let citationsData := hits.map mkCitation
  let validCited := generateValidCited hits sa
  let used0 := usedCitationsPass citationsData validCited
  let usedCitations :=
    if used0.isEmpty then (sortCitationsByScoreDesc citationsData).take 3
    else used0
  let cleaned := cleanedAnswer hits sa
  let answer := if (strTrim (renderAnswer cleaned)).isEmpty then sa.answer else cleaned
  { answer := answer, citations := usedCitations }

/-! ### Retry/backoff layer (`src/backend/src/core/retry.py`,
`retry_with_backoff`)

`f attempt` is the outcome of the wrapped unit of work on its
`attempt`-th invocation (0-based); `u attempt` is the value drawn by
`random.uniform(-jitter_amount, jitter_amount)` for that attempt.  The run
returns the surfaced outcome together with the list of backoff delays that
were slept, in order. -/

structure RetryConfig where
  maxRetries : Nat := 3
  initialDelay : ℚ := 1
  maxDelay : ℚ := 60
  exponentialBase : ℚ := 2
  jitter : Bool := true
deriving Repr

/-- The delay computed before a retry of attempt number `attempt`:
`min(initial_delay * exponential_base ** attempt, max_delay)`, plus the
jitter sample and the `max(0, ...)` clamp when jitter is enabled. -/
def backoffDelay (cfg : RetryConfig) (u : Nat → ℚ) (attempt : Nat) : ℚ :=
  let d := min (cfg.initialDelay * cfg.exponentialBase ^ attempt) cfg.maxDelay
  if cfg.jitter then max 0 (d + u attempt) else d

/-- The `for attempt in range(config.max_retries + 1)` loop.  `fuel` is the
number of loop iterations left; the loop always surfaces a value before the
fuel runs out, so the `fuel = 0` default is unreachable. -/
def retryLoop (cfg : RetryConfig) (retryable : PyErr → Bool) (u : Nat → ℚ)
    (opName : String) (f : Nat → Except PyErr α) :
    Nat → Nat → Except PyErr α × List ℚ
  | 0, _ => (.error (.exc "UnreachableLoopExit" ""), [])
  | fuel + 1, attempt =>
    match f attempt with
    | .ok a => (.ok a, [])
    | .error e =>
      if !retryable e then (.error e, [])
      else if cfg.maxRetries ≤ attempt then
        (.error (.externalServiceError opName e.message false), [])
      else
        let d := backoffDelay cfg u attempt
        let rest := retryLoop cfg retryable u opName f fuel (attempt + 1)
        (rest.1, d :: rest.2)

/-- `retry_with_backoff(func, config, operation_name)` applied to a call. -/
def retryWithBackoff (cfg : RetryConfig) (retryable : PyErr → Bool)
    (u : Nat → ℚ) (opName : String) (f : Nat → Except PyErr α) :
    Except PyErr α × List ℚ :=
  retryLoop cfg retryable u opName f (cfg.maxRetries + 1) 0

/-! ### Ingest background task (`src/backend/src/api/documents.py`,
`process_document_background`)

The structure-extraction step (`processor.process_pdf` / `process_docx`) and
the vector-store indexing step are parameters: the first yields the page
count and the semantic chunks, the second (`index_document_chunks`) either
returns how many chunks were actually indexed (embeddings that came back
absent are dropped, so `0` is possible) or raises. -/

structure ChunkRec where
  chunkId : String
  text : String
  pageNumber : Nat
  sectionName : String
deriving DecidableEq, Repr

structure StructResult where
  pageCount : Nat
  chunks : List ChunkRec
deriving Repr

structure IngestResult where
  status : DocStatus
  pageCount : Option Nat
  indexedChunks : Nat
deriving DecidableEq, Repr

/-- `process_document_background`: `found` is whether the document row was
still present on reload (`none` result = the worker logged and exited).  On
extraction success the row is committed as `Processed` with its page count
*before* indexing runs; an indexing failure is only logged and an empty
chunk list skips indexing, so both leave the status `Processed` with zero
indexed chunks.  On extraction failure the row is committed as `Failed`. -/
def processDocumentBackground (found : Bool)
    (extract : Except Unit StructResult)
    (indexer : List ChunkRec → Except Unit Nat) : Option IngestResult :=
  if !found then none
  else
    match extract with
    | .error _ => some { status := .failed, pageCount := none, indexedChunks := 0 }
    | .ok res =>
      let indexed :=
        if res.chunks.isEmpty then 0
        else
          match indexer res.chunks with
          | .ok k => k
          | .error _ => 0
      some { status := .processed, pageCount := some res.pageCount,
             indexedChunks := indexed }

/-! ### Clause deduplicator (`src/backend/src/services/clause_deduplicator.py`,
`ClauseDeduplicator.deduplicate_clauses`)

An extracted clause (`ExtractedClause` of `clause_extractor.py`); the enum
`clause_type` is carried by its string value, `confidence_score` is the
optional float the comparison reads with `or 0.0`. -/

structure XClause where
  clauseType : String
  extractedText : String
  pageNumber : Nat
  sectionName : String
  confidence : Option ℚ
  riskScore : ℚ
  riskFlags : List String
  riskReasoning : String
  clauseSubtype : Option String
deriving DecidableEq, Repr

instance : Inhabited XClause :=
  ⟨{ clauseType := "Other", extractedText := "", pageNumber := 0,
     sectionName := "Unknown", confidence := none, riskScore := 0,
     riskFlags := [], riskReasoning := "", clauseSubtype := none }⟩

/-- `ClauseDeduplicator._is_clause_better`: confidence gap over 0.05, then
text-length gap over 20 characters, then presence of non-blank risk
reasoning, then keep the first. -/
def isClauseBetter (c1 c2 : XClause) : Bool :=
  let conf1 := c1.confidence.getD 0
  let conf2 := c2.confidence.getD 0
  if (⟨1, 20, by decide, by decide⟩ : ℚ) < |conf1 - conf2| then
    decide (conf2 < conf1)
  else
    let len1 := c1.extractedText.length
    let len2 := c2.extractedText.length
    if 20 < Nat.dist len1 len2 then decide (len2 < len1)
    else
      let hasReasoning1 := !(strTrim c1.riskReasoning).isEmpty
      let hasReasoning2 := !(strTrim c2.riskReasoning).isEmpty
      if hasReasoning1 ≠ hasReasoning2 then hasReasoning1
      else true

/-- `ClauseDeduplicator._are_clauses_duplicate` with the pairwise decision
(the LLM call plus its textual fallback) abstracted as the deterministic
function `d`, after the quick checks: different types are never duplicates,
nor are clauses more than two pages apart. -/
def areClausesDuplicate (d : XClause → XClause → Bool) (c1 c2 : XClause) : Bool :=
  if c1.clauseType ≠ c2.clauseType then false
  else if 2 < Nat.dist c1.pageNumber c2.pageNumber then false
  else d c1 c2

/-- The three group keys a clause is indexed under in
`_group_clauses_for_comparison`: `(type, page)`, `(type, page - 1)` when the
page is positive, `(type, page + 1)`, in the order the code inserts them. -/
def groupKeysOf (c : XClause) : List (String × Nat) :=
  [(c.clauseType, c.pageNumber)]
    ++ (if 0 < c.pageNumber then [(c.clauseType, c.pageNumber - 1)] else [])
    ++ [(c.clauseType, c.pageNumber + 1)]

/-- First-occurrence deduplication, the key order of a Python dict built by
insertion. -/
def firstOccDedup (l : List (String × Nat)) : List (String × Nat) :=
  l.foldl (fun acc k => if k ∈ acc then acc else acc ++ [k]) []

def allGroupKeys (cs : List XClause) : List (String × Nat) :=
  firstOccDedup (cs.flatMap groupKeysOf)

/-- `_group_clauses_for_comparison`: for each key in insertion order, the
ascending list of the clause indices appended under that key. -/
def clauseGroups (cs : List XClause) : List (List Nat) :=
  (allGroupKeys cs).map (fun k =>
    (List.range cs.length).filter (fun i => decide (k ∈ groupKeysOf (cs.getD i default))))

/-- The inner `for j in range(i + 1, len(group_indices))` loop comparing
clause `idx1` against the later group members: a duplicate drops the worse
clause, and dropping `idx1` breaks out of the loop. -/
def dedupInner (cs : List XClause) (d : XClause → XClause → Bool) (idx1 : Nat) :
    List Nat → Finset Nat → Finset Nat
  | [], keep => keep
  | j :: rest, keep =>
    if j ∉ keep then dedupInner cs d idx1 rest keep
    else if areClausesDuplicate d (cs.getD idx1 default) (cs.getD j default) then
      if isClauseBetter (cs.getD idx1 default) (cs.getD j default) then
        dedupInner cs d idx1 rest (keep.erase j)
      else keep.erase idx1
    else dedupInner cs d idx1 rest keep

/-- The outer `for i in range(len(group_indices))` loop over one group. -/
def dedupOuter (cs : List XClause) (d : XClause → XClause → Bool) :
    List Nat → Finset Nat → Finset Nat
  | [], keep => keep
  | i :: rest, keep =>
    if i ∉ keep then dedupOuter cs d rest keep
    else dedupOuter cs d rest (dedupInner cs d i rest keep)

/-- `ClauseDeduplicator.deduplicate_clauses`: short lists are returned as
given; otherwise every group is scanned and the kept indices are read out
in ascending order. -/
def deduplicateClauses (d : XClause → XClause → Bool) (cs : List XClause) :
    List XClause :=
  if cs.length ≤ 1 then cs
  else
    let keep := (clauseGroups cs).foldl (fun k g => dedupOuter cs d g k)
      (Finset.range cs.length)
    ((List.range cs.length).filter (fun i => decide (i ∈ keep))).map
      (fun i => cs.getD i default)

/-! ### Clause extraction endpoint (`src/backend/src/api/clauses.py`,
`extract_clauses`)

State slice: the document row (with owning workspace and status), the
clauses table, and the per-document chunk records held by the vector store.
The LLM extraction (`clause_extractor.extract_clauses_from_document`, which
yields `[]` for every batch whose structured call failed) and the pairwise
deduplication decision are parameters.  `raceDeleted` is whether the
re-check `document_still_exists` before the final commit finds the row gone. -/

structure DocRec where
  id : Nat
  workspaceId : Nat
  status : DocStatus
deriving DecidableEq, Repr

structure ClausesDB where
  workspaces : List WorkspaceRow
  documents : List DocRec
  clauses : List (Nat × XClause)
  vectorChunks : List (Nat × ChunkRec)
deriving Repr

inductive ExtractEvent where
  | deleteClausesCommitted (docId : Nat)
  | llmExtractionRun (docId : Nat)
  | clausesCommitted (docId : Nat) (count : Nat)
deriving DecidableEq, Repr

structure ExtractOutcome where
  response : Except ApiError (Nat × List XClause)
  db : ClausesDB
  trace : List ExtractEvent
deriving Repr

/-- The band-appropriate fallback sentence synthesized when the LLM left
`risk_reasoning` blank (float formatting abstracted to `toString`). -/
def fallbackReasoning (riskScore : ℚ) : String :=
  if 75 ≤ riskScore then
    "Critical risk (score: " ++ toString riskScore ++
      ") - This clause requires immediate attention and negotiation."
  else if 50 ≤ riskScore then
    "High risk (score: " ++ toString riskScore ++
      ") - Significant concerns identified. Review and negotiation recommended."
  else if 25 ≤ riskScore then
    "Medium risk (score: " ++ toString riskScore ++
      ") - Some concerns identified. Review recommended."
  else
    "Low risk (score: " ++ toString riskScore ++
      ") - Standard or acceptable clause terms."

/-- The post-validation loop of `extract_clauses`: drop clauses whose text
is blank or under 10 characters after trimming, clamp the risk score to
[0, 100], and synthesize reasoning when blank. -/
def validateClause (c : XClause) : Option XClause :=
  if (strTrim c.extractedText).length < 10 then none
  else
    let rs := if c.riskScore < 0 then 0 else if 100 < c.riskScore then 100
      else c.riskScore
    let rr := if (strTrim c.riskReasoning).isEmpty then fallbackReasoning rs
      else c.riskReasoning
    some { c with riskScore := rs, riskReasoning := rr }

/-- `extract_clauses` (POST `/documents/{id}/extract-clauses`). -/
def extractClausesEndpoint (d : XClause → XClause → Bool)
    (extractor : List ChunkRec → List XClause)
    (db : ClausesDB) (userId docId : Nat) (forceReExtract : Bool)
    (raceDeleted : Bool) : ExtractOutcome :=
  match db.documents.find? (fun doc => doc.id = docId) with
  | none => { response := .error (.httpError 404 "Document not found"),
              db := db, trace := [] }
  | some doc =>
    match db.workspaces.find? (fun w =>
        w.id = doc.workspaceId && w.userId = userId) with
    | none => { response := .error (.httpError 404 "Document not found"),
                db := db, trace := [] }
    | some _ =>
      if doc.status ≠ .processed then
        { response := .error (.httpError 400
            "Document must be processed before clause extraction"),
          db := db, trace := [] }
      else
        let existing := db.clauses.filter (fun p => p.1 = docId)
        if !existing.isEmpty && !forceReExtract then
          { response := .ok (existing.length, existing.map Prod.snd),
            db := db, trace := [] }
        else
          let deleting := !existing.isEmpty && forceReExtract
          let db1 :=
            if deleting then
              { db with clauses := db.clauses.filter (fun p => p.1 ≠ docId) }
            else db
          let trace1 :=
            if deleting then [ExtractEvent.deleteClausesCommitted docId] else []
          let chunks := (db1.vectorChunks.filter (fun p => p.1 = docId)).map Prod.snd
          if chunks.isEmpty then
            { response := .error (.httpError 404
                "No chunks found for this document"),
              db := db1, trace := trace1 }
          else
            let extracted := extractor chunks
            let trace2 := trace1 ++ [ExtractEvent.llmExtractionRun docId]
            let deduped := deduplicateClauses d extracted
            let validated := deduped.filterMap validateClause
            if raceDeleted then
              { response := .error (.httpError 410
                  "Document was deleted during clause extraction"),
                db := db1, trace := trace2 }
            else
              { response := .ok (validated.length, validated),
                db := { db1 with
                  clauses := db1.clauses ++ validated.map (fun c => (docId, c)) },
                trace := trace2 ++ [ExtractEvent.clausesCommitted docId validated.length] }

/-! ## Theorems -/

/-- C5: whenever the cache's remote store is unreachable (the cache is
disabled), every cache operation fails open rather than raising: `get`
returns absent for every key, `set` performs no write and reports failure,
`delete` reports failure without raising, and `delete_pattern` returns
zero. -/
theorem cache_fail_open (st : CacheState) (key value pattern : String)
    (ttl : Option Nat) (h : st.enabled = false) :
    cacheGet st key = none ∧
    cacheSet st key value ttl = (st, false) ∧
    cacheDelete st key = (st, false) ∧
    cacheDeletePattern st pattern = (st, 0) := by
  refine ⟨?_, ?_, ?_, ?_⟩ <;>
    simp [cacheGet, cacheSet, cacheDelete, cacheDeletePattern, h]

theorem cache_fail_open_witness :
    cacheGet { enabled := false, store := [("k", "v")] } "k" = none ∧
    cacheSet { enabled := false, store := [("k", "v")] } "k" "w" none
      = ({ enabled := false, store := [("k", "v")] }, false) ∧
    cacheDelete { enabled := false, store := [("k", "v")] } "k"
      = ({ enabled := false, store := [("k", "v")] }, false) ∧
    cacheDeletePattern { enabled := false, store := [("k", "v")] } "workspace:*"
      = ({ enabled := false, store := [("k", "v")] }, 0) :=
  cache_fail_open { enabled := false, store := [("k", "v")] } "k" "w"
    "workspace:*" none rfl

/-- C6: the single-text embedding operation returns absent (not an error)
whenever the text is empty or the client has no credentials, and it reaches
the remote endpoint only when the text is non-empty and credentials are
configured. -/
theorem get_embedding_guard (hasClient : Bool) (cache : EmbCache)
    (remoteCall : String → Except PyErr (List ℚ)) (text model : String) :
    ((text.isEmpty = true ∨ hasClient = false) →
      (getEmbedding hasClient cache remoteCall text model).result
          = .ok none ∧
      (getEmbedding hasClient cache remoteCall text model).endpointCalled
          = false) ∧
    ((getEmbedding hasClient cache remoteCall text model).endpointCalled = true →
      text.isEmpty = false ∧ hasClient = true) := by
  constructor
  · intro h
    have hg : (!hasClient || text.isEmpty) = true := by
      rcases h with h | h <;> simp [h]
    simp [getEmbedding, hg]
  · intro h
    by_cases hc : hasClient
    · by_cases ht : text.isEmpty
      · simp [getEmbedding, hc, ht] at h
      · exact ⟨by simpa using ht, hc⟩
    · simp [getEmbedding, hc] at h

theorem get_embedding_guard_witness :
    (getEmbedding true [] (fun _ => .ok [(1 : ℚ)]) "" "text-embedding-3-small").result
      = .ok none ∧
    (getEmbedding true [] (fun _ => .ok [(1 : ℚ)]) "" "text-embedding-3-small").endpointCalled
      = false :=
  (get_embedding_guard true [] (fun _ => .ok [(1 : ℚ)]) "" "text-embedding-3-small").1
    (Or.inl rfl)

/-- C9: the claim says uploads larger than `max_file_size_mb` (default
50 MB) are rejected.  The code never consults `settings.max_file_size_mb`:
a 60 MiB PDF upload is accepted and its row is created in status
`Uploaded` with the oversized byte count stored, even though the default
configuration caps files at 50 MB. -/
theorem upload_ignores_max_file_size :
    uploadDocument {} [{ id := 1, userId := 7 }] 7
      { workspaceId := 1, filename := "big.pdf", fileSizeBytes := 62914560 } 42
      = .ok { id := 42, workspaceId := 1, fileType := .pdf, status := .uploaded,
              fileSize := 62914560 } ∧
    ({} : UploadCfg).maxFileSizeMb * 1024 * 1024 < 62914560 := by
  exact ⟨by decide, by norm_num⟩

/-- C2 counterexample: a document whose extraction succeeded with a
non-empty chunk list (so the source file had extractable text) still ends in
status `Processed` with zero indexed chunks when the vector-store indexing
step raises; the claim's only exception is an empty extraction. -/
theorem processed_with_zero_chunks_despite_text :
    processDocumentBackground true
      (.ok { pageCount := 1,
             chunks := [{ chunkId := "c0", text := "Either party may terminate.",
                          pageNumber := 1, sectionName := "Termination" }] })
      (fun _ => .error ())
      = some { status := .processed, pageCount := some 1, indexedChunks := 0 } ∧
    ([{ chunkId := "c0", text := "Either party may terminate.",
        pageNumber := 1, sectionName := "Termination" }] : List ChunkRec) ≠ [] := by
  exact ⟨by decide, by decide⟩

/-- C2 (amended): after a successful extraction, the background task always
commits status `Processed`; it is observed with zero indexed chunks only
when the extraction yielded no chunks (no extractable text, indexing
skipped), or the indexer raised, or the indexer inserted zero chunks. -/
theorem ingest_processed_zero_chunks (found : Bool) (res : StructResult)
    (indexer : List ChunkRec → Except Unit Nat) (r : IngestResult)
    (h : processDocumentBackground found (.ok res) indexer = some r)
    (hz : r.indexedChunks = 0) :
    r.status = .processed ∧ r.pageCount = some res.pageCount ∧
    (res.chunks = [] ∨ indexer res.chunks = .error () ∨
      indexer res.chunks = .ok 0) := by
  cases hf : found with
  | false => rw [hf] at h; simp [processDocumentBackground] at h
  | true =>
      rw [hf] at h
      simp only [processDocumentBackground, Bool.not_true, Bool.false_eq_true,
        if_false, Option.some.injEq] at h
      subst h
      refine ⟨rfl, rfl, ?_⟩
      by_cases hc : res.chunks.isEmpty
      · exact Or.inl (List.isEmpty_iff.mp hc)
      · cases hi : indexer res.chunks with
        | error e => exact Or.inr (Or.inl (by cases e; rfl))
        | ok k =>
            simp only [hc, hi] at hz
            simp at hz
            exact Or.inr (Or.inr (by rw [hz]))

theorem ingest_processed_zero_chunks_witness :
    ({ status := .processed, pageCount := some 2, indexedChunks := 0 }
        : IngestResult).status = .processed ∧
    ({ status := .processed, pageCount := some 2, indexedChunks := 0 }
        : IngestResult).pageCount
      = some ({ pageCount := 2, chunks := [] } : StructResult).pageCount ∧
    (({ pageCount := 2, chunks := [] } : StructResult).chunks = [] ∨
      (fun _ => Except.ok 0 : List ChunkRec → Except Unit Nat)
        ({ pageCount := 2, chunks := [] } : StructResult).chunks = .error () ∨
      (fun _ => Except.ok 0 : List ChunkRec → Except Unit Nat)
        ({ pageCount := 2, chunks := [] } : StructResult).chunks = .ok 0) :=
  ingest_processed_zero_chunks true { pageCount := 2, chunks := [] }
    (fun _ => Except.ok 0)
    { status := .processed, pageCount := some 2, indexedChunks := 0 }
    (by decide) rfl

/-- C8 counterexample: deleting the same workspace twice is not
success-returning; at this concrete state the first call succeeds and the
second raises `NotFoundError` (HTTP 404), not success. -/
theorem delete_workspace_twice_returns_not_found :
    (deleteWorkspace { workspaces := [{ id := 1, userId := 7 }],
                       cache := { enabled := true, store := [] } } 7 1).1
      = .ok () ∧
    (deleteWorkspace
        (deleteWorkspace { workspaces := [{ id := 1, userId := 7 }],
                           cache := { enabled := true, store := [] } } 7 1).2
        7 1).1
      = .error (.notFound "workspace" "1") := by
  exact ⟨by decide, by decide⟩

/-- When the scoped lookup misses, `delete_workspace` surfaces
`NotFoundError` and leaves the state untouched. -/
theorem deleteWorkspace_of_find_none (db : WorkspacesDB) (userId wid : Nat)
    (h : db.workspaces.find? (fun w => w.id = wid && w.userId = userId) = none) :
    deleteWorkspace db userId wid
      = (.error (.notFound "workspace" (toString wid)), db) := by
  simp [deleteWorkspace, h]

/-- C8 (amended): a second `delete_workspace` with the same id after a
successful deletion is a no-op on the state, but it surfaces
`NotFoundError` (HTTP 404) rather than success. -/
theorem delete_workspace_second_call (db : WorkspacesDB) (userId wid : Nat)
    (h : (deleteWorkspace db userId wid).1 = .ok ()) :
    (deleteWorkspace (deleteWorkspace db userId wid).2 userId wid).1
      = .error (.notFound "workspace" (toString wid)) ∧
    (deleteWorkspace (deleteWorkspace db userId wid).2 userId wid).2
      = (deleteWorkspace db userId wid).2 := by
  cases hf : db.workspaces.find? (fun w => w.id = wid && w.userId = userId) with
  | none => simp [deleteWorkspace, hf] at h
  | some w =>
      have hws : (deleteWorkspace db userId wid).2.workspaces
          = db.workspaces.filter (fun w => w.id ≠ wid) := by
        simp [deleteWorkspace, hf]
      have hnone : (deleteWorkspace db userId wid).2.workspaces.find?
          (fun w => w.id = wid && w.userId = userId) = none := by
        rw [hws]
        refine List.find?_eq_none.mpr ?_
        intro x hx
        have hne := (List.mem_filter.mp hx).2
        simp only [decide_eq_true_eq] at hne
        simp [hne]
      have hd := deleteWorkspace_of_find_none
        (deleteWorkspace db userId wid).2 userId wid hnone
      exact ⟨by rw [hd], by rw [hd]⟩

theorem delete_workspace_second_call_witness :
    (deleteWorkspace
        (deleteWorkspace { workspaces := [{ id := 1, userId := 7 }],
                           cache := { enabled := true, store := [] } } 7 1).2
        7 1).1
      = .error (.notFound "workspace" (toString 1)) ∧
    (deleteWorkspace
        (deleteWorkspace { workspaces := [{ id := 1, userId := 7 }],
                           cache := { enabled := true, store := [] } } 7 1).2
        7 1).2
      = (deleteWorkspace { workspaces := [{ id := 1, userId := 7 }],
                           cache := { enabled := true, store := [] } } 7 1).2 :=
  delete_workspace_second_call
    { workspaces := [{ id := 1, userId := 7 }],
      cache := { enabled := true, store := [] } } 7 1 (by decide)

theorem mem_sortHits {l : List Hit} {r : Hit} :
    r ∈ sortHitsByScoreDesc l ↔ r ∈ l :=
  (List.perm_insertionSort hitGE l).mem_iff

theorem mem_of_sortHitsTake {l : List Hit} {r : Hit} {n : Nat}
    (h : r ∈ (sortHitsByScoreDesc l).take n) : r ∈ l :=
  mem_sortHits.mp (List.take_subset n _ h)

theorem sortHitsTake_pairwise (l : List Hit) (n : Nat) :
    List.Pairwise (fun a b => b.score ≤ a.score)
      ((sortHitsByScoreDesc l).take n) := by
  have hp : List.Pairwise hitGE (sortHitsByScoreDesc l) :=
    List.sorted_insertionSort hitGE l
  exact (hp.imp (fun h => h)).sublist (List.take_sublist n _)

/-- C3: for every non-greeting question the retrieve node searches the
vector store with `k = 10`, applies the optional document-id restriction
client-side after the search, drops every hit with similarity ≤ −0.3,
truncates to the top 5 by similarity, and keeps the top 5 regardless of the
threshold when the filter empties the set: the source translation agrees
with the specification's description, the result has at most 5 hits all
drawn from the document-filtered search results, every kept hit clears the
threshold whenever any hit could, and the result is ranked by descending
similarity. -/
theorem retrieve_node_correct (search : Nat → List Hit) (inp : RetrieveInput)
    (h : isGreetingQuestion inp.question = false) :
    retrieveNode search inp = retrieveSpec search inp ∧
    (retrieveNode search inp).length ≤ 5 ∧
    (∀ r ∈ retrieveNode search inp,
      r ∈ applyDocumentFilter inp.documentIds (search 10)) ∧
    ((∃ r ∈ applyDocumentFilter inp.documentIds (search 10),
        MIN_SIMILARITY_THRESHOLD < r.score) →
      ∀ r ∈ retrieveNode search inp, MIN_SIMILARITY_THRESHOLD < r.score) ∧
    List.Pairwise (fun a b => b.score ≤ a.score) (retrieveNode search inp) := by
  have hfeq : (fun r : Hit => !decide (r.score ≤ MIN_SIMILARITY_THRESHOLD))
      = (fun r : Hit => decide (MIN_SIMILARITY_THRESHOLD < r.score)) := by
    funext r
    rcases le_or_lt r.score MIN_SIMILARITY_THRESHOLD with h1 | h1
    · simp [h1, not_lt.mpr h1]
    · simp [h1, not_le.mpr h1]
  refine ⟨?_, ?_, ?_, ?_, ?_⟩
  · simp only [retrieveNode, retrieveSpec, h, Bool.false_eq_true, if_false, hfeq]
  · simp only [retrieveNode, h, Bool.false_eq_true, if_false]
    split <;> simp [List.length_take]
  · intro r hr
    simp only [retrieveNode, h, Bool.false_eq_true, if_false] at hr
    split at hr
    · exact mem_of_sortHitsTake hr
    · exact (List.mem_filter.mp (mem_of_sortHitsTake hr)).1
  · intro hex r hr
    rcases hex with ⟨x, hx, hxs⟩
    have hne : ((applyDocumentFilter inp.documentIds (search 10)).filter
        (fun r => decide (MIN_SIMILARITY_THRESHOLD < r.score))).isEmpty = false := by
      rw [List.isEmpty_eq_false]
      intro hnil
      have hmemf : x ∈ (applyDocumentFilter inp.documentIds (search 10)).filter
          (fun r => decide (MIN_SIMILARITY_THRESHOLD < r.score)) :=
        List.mem_filter.mpr ⟨hx, by simpa using hxs⟩
      rw [hnil] at hmemf
      cases hmemf
    simp only [retrieveNode, h, Bool.false_eq_true, if_false, hne,
      Bool.false_eq_true, if_false] at hr
    have := (List.mem_filter.mp (mem_of_sortHitsTake hr)).2
    simpa using this
  · simp only [retrieveNode, h, Bool.false_eq_true, if_false]
    split <;> exact sortHitsTake_pairwise _ 5

theorem retrieve_node_correct_witness :
    retrieveNode
        (fun _ => [{ text := "Payment is due in 30 days.", documentId := "d1",
                     documentName := "Contract", pageNumber := 3,
                     sectionName := "Payment", chunkId := some "c1",
                     score := 1 / 2 }])
        { question := "what are the payment terms?", documentIds := none }
      = retrieveSpec
        (fun _ => [{ text := "Payment is due in 30 days.", documentId := "d1",
                     documentName := "Contract", pageNumber := 3,
                     sectionName := "Payment", chunkId := some "c1",
                     score := 1 / 2 }])
        { question := "what are the payment terms?", documentIds := none } ∧
    (retrieveNode
        (fun _ => [{ text := "Payment is due in 30 days.", documentId := "d1",
                     documentName := "Contract", pageNumber := 3,
                     sectionName := "Payment", chunkId := some "c1",
                     score := 1 / 2 }])
        { question := "what are the payment terms?", documentIds := none }).length
      ≤ 5 :=
  ⟨(retrieve_node_correct _ _ (by decide)).1,
   (retrieve_node_correct _ _ (by decide)).2.1⟩

theorem mem_validCitedSources {cited : List Int} {n : Nat} {s : Int} :
    s ∈ validCitedSources cited n ↔
      s ∈ cited ∧ 1 ≤ s ∧ s ≤ (n : Int) := by
  simp [validCitedSources, List.mem_filter, and_assoc]

theorem mem_fallbackCited {n : Nat} {s : Int} :
    s ∈ fallbackCited n ↔ ∃ i : Nat, i < min 3 n ∧ s = (i : Int) + 1 := by
  constructor
  · intro h
    rcases List.mem_map.mp h with ⟨i, hi, he⟩
    exact ⟨i, List.mem_range.mp hi, he.symm⟩
  · rintro ⟨i, hi, rfl⟩
    exact List.mem_map.mpr ⟨i, List.mem_range.mpr hi, rfl⟩

theorem mem_generateValidCited_bound {hits : List Hit} {sa : StructuredAnswer}
    {s : Int} (h : s ∈ generateValidCited hits sa) :
    1 ≤ s ∧ s ≤ (hits.length : Int) := by
  unfold generateValidCited at h
  simp only [List.length_map] at h
  by_cases he : (validCitedSources sa.citedSources hits.length).isEmpty
  · rw [if_pos he] at h
    rcases mem_fallbackCited.mp h with ⟨i, hi, rfl⟩
    have h3 : i < hits.length := lt_of_lt_of_le hi (min_le_right _ _)
    constructor
    · omega
    · omega
  · rw [if_neg he] at h
    exact (mem_validCitedSources.mp h).2

theorem cleanedAnswer_ref_valid {hits : List Hit} {sa : StructuredAnswer}
    {p : AnswerPiece} (hp : p ∈ cleanedAnswer hits sa) (k : Nat)
    (hk : p = AnswerPiece.srcBracket k ∨ p = AnswerPiece.srcBare k) :
    (k : Int) ∈ generateValidCited hits sa := by
  unfold cleanedAnswer normalizeRefs at hp
  rcases List.mem_map.mp hp with ⟨q, hq, hqe⟩
  rcases List.mem_map.mp hq with ⟨q0, hq0, hq0e⟩
  have hmemfil := List.mem_filter.mp hq0
  cases q0 with
  | plain s =>
      subst hq0e
      subst hqe
      rcases hk with hk | hk <;> cases hk
  | srcBracket k' =>
      subst hq0e
      subst hqe
      have hk' : k' = k := by
        rcases hk with hk | hk <;> simpa using hk
      subst hk'
      simpa using hmemfil.2
  | srcBare k' =>
      subst hq0e
      subst hqe
      have hk' : k' = k := by
        rcases hk with hk | hk <;> simpa using hk
      subst hk'
      simpa using hmemfil.2

theorem mem_sortCits {l : List Citation} {c : Citation} :
    c ∈ sortCitationsByScoreDesc l ↔ c ∈ l :=
  (List.perm_insertionSort citGE l).mem_iff

theorem usedCitationsPass_mem {cd : List Citation} {valid : List Int}
    {c : Citation} (h : c ∈ usedCitationsPass cd valid) : c ∈ cd := by
  unfold usedCitationsPass at h
  rcases List.mem_filterMap.mp h with ⟨s, _, hs⟩
  split at hs
  case isTrue hb =>
    split at hs
    case isTrue hsim =>
      cases hs
      simp only [Bool.and_eq_true, decide_eq_true_eq] at hb
      have hlt : (s - 1).toNat < cd.length := by omega
      rw [List.getD_eq_getElem _ _ hlt]
      exact List.getElem_mem hlt
    case isFalse hsim => cases hs
  case isFalse hb => cases hs

/-- C1 counterexample: with one retrieved hit (so `N = 1`) and an LLM answer
consisting solely of the out-of-range reference `[Source 7]`, stripping
empties the text, and the code falls back to returning the original answer
unchanged: the final answer text still contains `[Source 7]` with `7 > N`,
falsifying "every integer appearing in the final answer text ... satisfies
`1 ≤ k ≤ N`". -/
theorem generate_node_returns_invalid_ref :
    (generateNode
        [{ text := "Either party may terminate this Agreement.",
           documentId := "d1", documentName := "Contract", pageNumber := 3,
           sectionName := "Termination", chunkId := some "c1",
           score := 1 }]
        { answer := [.srcBracket 7], citedSources := [], confidence := 0 }).answer
      = [AnswerPiece.srcBracket 7] ∧
    ([{ text := "Either party may terminate this Agreement.",
        documentId := "d1", documentName := "Contract", pageNumber := 3,
        sectionName := "Termination", chunkId := some "c1",
        score := 1 }] : List Hit).length = 1 ∧ ¬(7 ≤ 1) := by
  exact ⟨by decide, by decide, by decide⟩

/-- C1 (amended): for every answer produced by the generate node on a
non-empty retrieval set of size `N` ranked by similarity: the LLM's
`cited_sources` are filtered to the intersection with `{1..N}`; if none
survive, the surviving set becomes the top 3 hits by similarity (sources
`1..min(3,N)`, which dominate every other hit's similarity); every element
of the surviving set lies in `{1..N}`; provided the stripped answer text is
non-empty — if stripping empties it, the original answer is returned
unchanged — every `[Source k]` or bare `Source k` reference in the final
answer text satisfies `1 ≤ k ≤ N`; and every returned citation corresponds
to one of the retrieved hits. -/
theorem generate_node_citation_safety (hits : List Hit) (sa : StructuredAnswer)
    (hne : hits ≠ [])
    (hsorted : List.Pairwise (fun a b => b.score ≤ a.score) hits) :
    (∀ s : Int, s ∈ validCitedSources sa.citedSources hits.length ↔
        (s ∈ sa.citedSources ∧ 1 ≤ s ∧ s ≤ (hits.length : Int))) ∧
    (∀ s ∈ generateValidCited hits sa, 1 ≤ s ∧ s ≤ (hits.length : Int)) ∧
    (validCitedSources sa.citedSources hits.length = [] →
      generateValidCited hits sa = fallbackCited hits.length ∧
      ∀ s ∈ fallbackCited hits.length, ∀ j : Nat, j < hits.length →
        ((j : Int) + 1) ∉ fallbackCited hits.length →
        (hits.getD j default).score ≤ (hits.getD (s - 1).toNat default).score) ∧
    ((strTrim (renderAnswer (cleanedAnswer hits sa))).isEmpty = false →
      ∀ p ∈ (generateNode hits sa).answer, ∀ k : Nat,
        (p = AnswerPiece.srcBracket k ∨ p = AnswerPiece.srcBare k) →
        1 ≤ k ∧ k ≤ hits.length) ∧
    (∀ c ∈ (generateNode hits sa).citations, ∃ hh ∈ hits, c = mkCitation hh) := by
  refine ⟨fun s => mem_validCitedSources, fun s h => mem_generateValidCited_bound h,
    ?_, ?_, ?_⟩
  · intro hempty
    constructor
    · unfold generateValidCited
      simp only [List.length_map, hempty, List.isEmpty_nil, if_pos]
    · intro s hs j hj hjnot
      rcases mem_fallbackCited.mp hs with ⟨i, hi, rfl⟩
      have hjge : min 3 hits.length ≤ j := by
        by_contra hlt
        push_neg at hlt
        exact hjnot (mem_fallbackCited.mpr ⟨j, hlt, rfl⟩)
      have hij : i < j := lt_of_lt_of_le hi hjge
      have hi' : i < hits.length := lt_of_lt_of_le hi (min_le_right _ _)
      have hscore := (List.pairwise_iff_getElem.mp hsorted) i j hi' hj hij
      have htn : ((i : Int) + 1 - 1).toNat = i := by omega
      rw [htn, List.getD_eq_getElem _ _ hi', List.getD_eq_getElem _ _ hj]
      exact hscore
  · intro hclean p hp k hk
    have hans : (generateNode hits sa).answer = cleanedAnswer hits sa := by
      unfold generateNode
      simp only [hclean, Bool.false_eq_true, if_false]
    rw [hans] at hp
    have hv := cleanedAnswer_ref_valid hp k hk
    have hb := mem_generateValidCited_bound hv
    constructor
    · omega
    · omega
  · intro c hc
    have hcd : c ∈ hits.map mkCitation := by
      have : (generateNode hits sa).citations
          = (if (usedCitationsPass (hits.map mkCitation)
                  (generateValidCited hits sa)).isEmpty then
              (sortCitationsByScoreDesc (hits.map mkCitation)).take 3
            else usedCitationsPass (hits.map mkCitation)
                  (generateValidCited hits sa)) := rfl
      rw [this] at hc
      by_cases hu : (usedCitationsPass (hits.map mkCitation)
          (generateValidCited hits sa)).isEmpty
      · rw [if_pos hu] at hc
        exact mem_sortCits.mp (List.take_subset 3 _ hc)
      · rw [if_neg hu] at hc
        exact usedCitationsPass_mem hc
    rcases List.mem_map.mp hcd with ⟨hh, hhm, hhe⟩
    exact ⟨hh, hhm, hhe.symm⟩

theorem generate_node_citation_safety_witness :
    ((2 : Int) ∈ validCitedSources [2, 7] 3 ↔
      ((2 : Int) ∈ [(2 : Int), 7] ∧ 1 ≤ (2 : Int) ∧ (2 : Int) ≤ (3 : Int))) :=
  by
    have h := (generate_node_citation_safety
      [{ text := "a", documentId := "d1", documentName := "A", pageNumber := 1,
         sectionName := "S", chunkId := none, score := 3 },
       { text := "b", documentId := "d1", documentName := "A", pageNumber := 2,
         sectionName := "S", chunkId := none, score := 2 },
       { text := "c", documentId := "d1", documentName := "A", pageNumber := 3,
         sectionName := "S", chunkId := none, score := 1 }]
      { answer := [.plain "Termination requires notice ", .srcBracket 2],
        citedSources := [2, 7], confidence := 1 }
      (by decide) (by decide)).1 2
    simpa using h

theorem retryLoop_delays (cfg : RetryConfig) (retryable : PyErr → Bool)
    (u : Nat → ℚ) (opName : String) (f : Nat → Except PyErr α) :
    ∀ fuel attempt, ∃ m,
      (retryLoop cfg retryable u opName f fuel attempt).2
        = (List.range' attempt m).map (backoffDelay cfg u) ∧
      attempt + m ≤ max cfg.maxRetries attempt := by
  intro fuel
  induction fuel with
  | zero =>
      intro attempt
      exact ⟨0, rfl, by omega⟩
  | succ fuel ih =>
      intro attempt
      unfold retryLoop
      cases hf : f attempt with
      | ok a => exact ⟨0, rfl, by omega⟩
      | error e =>
          by_cases hr : retryable e
          · simp only [hr, Bool.not_true, Bool.false_eq_true, if_false]
            by_cases hm : cfg.maxRetries ≤ attempt
            · rw [if_pos hm]
              exact ⟨0, rfl, by omega⟩
            · rw [if_neg hm]
              rcases ih (attempt + 1) with ⟨m, hm1, hm2⟩
              refine ⟨m + 1, ?_, by omega⟩
              simp only [hm1, List.range'_succ, List.map_cons]
          · simp only [hr, Bool.not_false, if_true]
            exact ⟨0, rfl, by omega⟩

theorem retryLoop_nonretryable (cfg : RetryConfig) (retryable : PyErr → Bool)
    (u : Nat → ℚ) (opName : String) (f : Nat → Except PyErr α) (k : Nat)
    (e : PyErr) (hk : k ≤ cfg.maxRetries) (hfk : f k = .error e)
    (hnr : retryable e = false) :
    ∀ fuel attempt, attempt + fuel = cfg.maxRetries + 1 → attempt ≤ k →
      (∀ j, attempt ≤ j → j < k → ∃ ej, f j = .error ej ∧ retryable ej = true) →
      retryLoop cfg retryable u opName f fuel attempt
        = (.error e, (List.range' attempt (k - attempt)).map (backoffDelay cfg u)) := by
  intro fuel
  induction fuel with
  | zero =>
      intro attempt hfuel hak _
      omega
  | succ fuel ih =>
      intro attempt hfuel hak hprev
      unfold retryLoop
      by_cases hek : attempt = k
      · subst hek
        rw [hfk]
        simp only [hnr, Bool.not_false, if_true, Nat.sub_self, List.range',
          List.map_nil]
      · have hlt : attempt < k := by omega
        rcases hprev attempt le_rfl hlt with ⟨ej, hej, hrj⟩
        rw [hej]
        simp only [hrj, Bool.not_true, Bool.false_eq_true, if_false]
        rw [if_neg (by omega : ¬ cfg.maxRetries ≤ attempt)]
        rw [ih (attempt + 1) (by omega) (by omega)
          (fun j hj1 hj2 => hprev j (by omega) hj2)]
        have hrange : List.range' attempt (k - attempt)
            = attempt :: List.range' (attempt + 1) (k - attempt - 1) := by
          obtain ⟨m, hm⟩ : ∃ m, k - attempt = m + 1 := ⟨k - attempt - 1, by omega⟩
          have h1 : List.range' attempt (k - attempt)
              = List.range' attempt (m + 1) := by rw [hm]
          have h2 : m = k - attempt - 1 := by omega
          rw [h1, List.range'_succ, h2]
        simp only [hrange, List.map_cons, Nat.sub_sub]

theorem retryLoop_exhaustion (cfg : RetryConfig) (retryable : PyErr → Bool)
    (u : Nat → ℚ) (opName : String) (f : Nat → Except PyErr α)
    (e : PyErr) (hfk : f cfg.maxRetries = .error e) (hr : retryable e = true) :
    ∀ fuel attempt, attempt + fuel = cfg.maxRetries + 1 →
      attempt ≤ cfg.maxRetries →
      (∀ j, attempt ≤ j → j < cfg.maxRetries →
        ∃ ej, f j = .error ej ∧ retryable ej = true) →
      retryLoop cfg retryable u opName f fuel attempt
        = (.error (.externalServiceError opName e.message false),
           (List.range' attempt (cfg.maxRetries - attempt)).map
             (backoffDelay cfg u)) := by
  intro fuel
  induction fuel with
  | zero =>
      intro attempt hfuel hattempt _
      omega
  | succ fuel ih =>
      intro attempt hfuel hattempt hprev
      unfold retryLoop
      by_cases hek : attempt = cfg.maxRetries
      · subst hek
        rw [hfk]
        simp only [hr, Bool.not_true, Bool.false_eq_true, if_false]
        rw [if_pos le_rfl]
        simp only [Nat.sub_self, List.range', List.map_nil]
      · have hlt : attempt < cfg.maxRetries := by omega
        rcases hprev attempt le_rfl hlt with ⟨ej, hej, hrj⟩
        rw [hej]
        simp only [hrj, Bool.not_true, Bool.false_eq_true, if_false]
        rw [if_neg (by omega : ¬ cfg.maxRetries ≤ attempt)]
        rw [ih (attempt + 1) (by omega) (by omega)
          (fun j hj1 hj2 => hprev j (by omega) hj2)]
        have hrange : List.range' attempt (cfg.maxRetries - attempt)
            = attempt :: List.range' (attempt + 1) (cfg.maxRetries - attempt - 1) := by
          obtain ⟨m, hm⟩ : ∃ m, cfg.maxRetries - attempt = m + 1 :=
            ⟨cfg.maxRetries - attempt - 1, by omega⟩
          have h1 : List.range' attempt (cfg.maxRetries - attempt)
              = List.range' attempt (m + 1) := by rw [hm]
          have h2 : m = cfg.maxRetries - attempt - 1 := by omega
          rw [h1, List.range'_succ, h2]
        simp only [hrange, List.map_cons, Nat.sub_sub]

/-- C4 counterexample: the claim says a failure whose kind is not in the
retryable set is "surfaced immediately wrapped as a non-retryable
external-service failure".  The code's non-retryable branch is a bare
`raise`: at this concrete run the surfaced error is the original exception,
not an `ExternalServiceError` wrapper. -/
theorem retry_non_retryable_not_wrapped :
    (retryWithBackoff {} (fun _ => false) (fun _ => 0) "get_embedding"
        (fun _ => (.error (.exc "ValueError" "bad input") : Except PyErr Unit)))
      = (.error (.exc "ValueError" "bad input"), []) ∧
    PyErr.isExternalServiceWrap (.exc "ValueError" "bad input") = false := by
  exact ⟨by decide, by decide⟩

/-- C4 (amended): the wrapped unit is attempted at most `max_retries + 1`
times (at most `max_retries` sleeps); the sleep before retrying attempt `i`
is `min(initial_delay * base^i, max_delay)`, exactly when jitter is off and
perturbed by at most ±10% when jitter is on (for a nonnegative
configuration and a ±10% sample); a failure whose error kind is not in the
retryable set is surfaced immediately AS-IS (not wrapped); and on
exhaustion a non-retryable external-service failure carrying the final
error's message is surfaced. -/
theorem retry_with_backoff_contract (cfg : RetryConfig)
    (retryable : PyErr → Bool) (u : Nat → ℚ) (opName : String)
    (f : Nat → Except PyErr α) :
    (retryWithBackoff cfg retryable u opName f).2.length ≤ cfg.maxRetries ∧
    (retryWithBackoff cfg retryable u opName f).2
      = (List.range (retryWithBackoff cfg retryable u opName f).2.length).map
          (backoffDelay cfg u) ∧
    (cfg.jitter = false → ∀ i : Nat,
      backoffDelay cfg u i
        = min (cfg.initialDelay * cfg.exponentialBase ^ i) cfg.maxDelay) ∧
    (cfg.jitter = true → 0 ≤ cfg.initialDelay → 0 ≤ cfg.exponentialBase →
      0 ≤ cfg.maxDelay → ∀ i : Nat,
      |u i| ≤ min (cfg.initialDelay * cfg.exponentialBase ^ i) cfg.maxDelay / 10 →
      (9 / 10) * min (cfg.initialDelay * cfg.exponentialBase ^ i) cfg.maxDelay
          ≤ backoffDelay cfg u i ∧
        backoffDelay cfg u i
          ≤ (11 / 10) * min (cfg.initialDelay * cfg.exponentialBase ^ i)
              cfg.maxDelay) ∧
    (∀ k e, k ≤ cfg.maxRetries →
      (∀ j, j < k → ∃ ej, f j = .error ej ∧ retryable ej = true) →
      f k = .error e → retryable e = false →
      retryWithBackoff cfg retryable u opName f
        = (.error e, (List.range k).map (backoffDelay cfg u))) ∧
    (∀ e, (∀ j, j < cfg.maxRetries →
        ∃ ej, f j = .error ej ∧ retryable ej = true) →
      f cfg.maxRetries = .error e → retryable e = true →
      retryWithBackoff cfg retryable u opName f
        = (.error (.externalServiceError opName e.message false),
           (List.range cfg.maxRetries).map (backoffDelay cfg u))) := by
  have hdel := retryLoop_delays cfg retryable u opName f (cfg.maxRetries + 1) 0
  rcases hdel with ⟨m, hm1, hm2⟩
  have hlen : (retryWithBackoff cfg retryable u opName f).2.length = m := by
    unfold retryWithBackoff
    rw [hm1, List.length_map, List.length_range']
  rw [max_eq_left (Nat.zero_le _)] at hm2
  refine ⟨?_, ?_, ?_, ?_, ?_, ?_⟩
  · rw [hlen]; omega
  · rw [hlen]
    unfold retryWithBackoff
    rw [hm1, List.range_eq_range']
  · intro hj i
    unfold backoffDelay
    rw [if_neg (by simp [hj])]
  · intro hj hinit hbase hmax i hu
    set d := min (cfg.initialDelay * cfg.exponentialBase ^ i) cfg.maxDelay with hd
    have hd0 : 0 ≤ d := le_min (mul_nonneg hinit (pow_nonneg hbase i)) hmax
    have hub : u i ≤ d / 10 := (abs_le.mp hu).2
    have hlb : -(d / 10) ≤ u i := (abs_le.mp hu).1
    have hbd : backoffDelay cfg u i = max 0 (d + u i) := by
      unfold backoffDelay
      rw [if_pos (by simp [hj])]
    constructor
    · rw [hbd]
      have h9 : (9 / 10 : ℚ) * d ≤ d + u i := by linarith
      exact le_trans h9 (le_max_right _ _)
    · rw [hbd]
      have h11 : d + u i ≤ (11 / 10 : ℚ) * d := by linarith
      have h0 : (0 : ℚ) ≤ (11 / 10 : ℚ) * d := by positivity
      exact max_le h0 h11
  · intro k e hk hprev hfk hnr
    unfold retryWithBackoff
    rw [retryLoop_nonretryable cfg retryable u opName f k e hk hfk hnr
      (cfg.maxRetries + 1) 0 (by omega) (by omega)
      (fun j _ hj2 => hprev j hj2)]
    rw [Nat.sub_zero, List.range_eq_range']
  · intro e hprev hfk hr
    unfold retryWithBackoff
    rw [retryLoop_exhaustion cfg retryable u opName f e hfk hr
      (cfg.maxRetries + 1) 0 (by omega) (by omega)
      (fun j _ hj2 => hprev j hj2)]
    rw [Nat.sub_zero, List.range_eq_range']

theorem retry_with_backoff_contract_witness :
    retryWithBackoff { maxRetries := 2, jitter := false }
        (fun e =>
          match e with
          | .exc kind _ => kind == "Timeout"
          | _ => false)
        (fun _ => 0) "get_embedding"
        (fun n =>
          if n = 0 then (.error (.exc "Timeout" "t") : Except PyErr Unit)
          else .error (.exc "AuthenticationError" "denied"))
      = (.error (.exc "AuthenticationError" "denied"),
         (List.range 1).map
           (backoffDelay { maxRetries := 2, jitter := false } (fun _ => 0))) :=
  (retry_with_backoff_contract { maxRetries := 2, jitter := false }
      (fun e =>
        match e with
        | .exc kind _ => kind == "Timeout"
        | _ => false)
      (fun _ => 0) "get_embedding"
      (fun n =>
        if n = 0 then (.error (.exc "Timeout" "t") : Except PyErr Unit)
        else .error (.exc "AuthenticationError" "denied"))).2.2.2.2.1
    1 (.exc "AuthenticationError" "denied") (by decide)
    (fun j hj => by
      have hj0 : j = 0 := by omega
      subst hj0
      exact ⟨.exc "Timeout" "t", rfl, rfl⟩)
    rfl rfl

/-- C10: when extract-clauses runs with `force_re_extract = true` on a
processed document that has existing clauses and indexed chunks, the
existing clauses are deleted and committed before the LLM extraction runs
(the trace lists the delete commit first); when every extraction batch then
fails (the extractor returns `[]`), the endpoint still answers success with
zero clauses and the prior clauses are not restored. -/
theorem extract_clauses_force_deletes_first (d : XClause → XClause → Bool)
    (db : ClausesDB) (userId docId : Nat) (doc : DocRec) (w : WorkspaceRow)
    (hdoc : db.documents.find? (fun dc => dc.id = docId) = some doc)
    (hw : db.workspaces.find?
      (fun x => x.id = doc.workspaceId && x.userId = userId) = some w)
    (hst : doc.status = .processed)
    (hex : db.clauses.filter (fun p => p.1 = docId) ≠ [])
    (hch : db.vectorChunks.filter (fun p => p.1 = docId) ≠ []) :
    extractClausesEndpoint d (fun _ => []) db userId docId true false
      = { response := .ok (0, []),
          db := { db with clauses := db.clauses.filter (fun p => p.1 ≠ docId) },
          trace := [.deleteClausesCommitted docId, .llmExtractionRun docId,
                    .clausesCommitted docId 0] } := by
  have hexB : (db.clauses.filter (fun p => p.1 = docId)).isEmpty = false :=
    List.isEmpty_eq_false.mpr hex
  have hchB : ((db.vectorChunks.filter (fun p => p.1 = docId)).map
      Prod.snd).isEmpty = false := by
    rw [List.isEmpty_eq_false]
    intro hnil
    exact hch (List.map_eq_nil_iff.mp hnil)
  unfold extractClausesEndpoint
  rw [hdoc]
  dsimp only
  rw [hw]
  dsimp only
  simp only [hst, hexB, hchB, Bool.not_false, Bool.not_true, Bool.and_false,
    Bool.and_true, Bool.false_eq_true, if_false, ne_eq, not_true_eq_false,
    if_true]
  have hded : deduplicateClauses d ([] : List XClause) = [] := rfl
  simp only [hded, List.filterMap_nil, List.length_nil, List.map_nil,
    List.append_nil]
  rfl

theorem extract_clauses_force_deletes_first_witness :
    extractClausesEndpoint (fun _ _ => false) (fun _ => [])
        { workspaces := [{ id := 1, userId := 7 }],
          documents := [{ id := 10, workspaceId := 1, status := .processed }],
          clauses := [(10,
            { clauseType := "Termination",
              extractedText := "Either party may terminate with notice.",
              pageNumber := 3, sectionName := "Termination",
              confidence := none, riskScore := 20, riskFlags := [],
              riskReasoning := "Standard notice period.",
              clauseSubtype := none })],
          vectorChunks := [(10,
            { chunkId := "c1",
              text := "Either party may terminate with notice.",
              pageNumber := 3, sectionName := "Termination" })] }
        7 10 true false
      = { response := .ok (0, []),
          db := { workspaces := [{ id := 1, userId := 7 }],
                  documents := [{ id := 10, workspaceId := 1,
                                  status := .processed }],
                  clauses := List.filter (fun p => p.1 ≠ 10)
                    [((10 : Nat),
                      ({ clauseType := "Termination",
                         extractedText := "Either party may terminate with notice.",
                         pageNumber := 3, sectionName := "Termination",
                         confidence := none, riskScore := 20, riskFlags := [],
                         riskReasoning := "Standard notice period.",
                         clauseSubtype := none } : XClause))],
                  vectorChunks := [(10,
                    { chunkId := "c1",
                      text := "Either party may terminate with notice.",
                      pageNumber := 3, sectionName := "Termination" })] },
          trace := [.deleteClausesCommitted 10, .llmExtractionRun 10,
                    .clausesCommitted 10 0] } :=
  extract_clauses_force_deletes_first (fun _ _ => false)
    { workspaces := [{ id := 1, userId := 7 }],
      documents := [{ id := 10, workspaceId := 1, status := .processed }],
      clauses := [(10,
        { clauseType := "Termination",
          extractedText := "Either party may terminate with notice.",
          pageNumber := 3, sectionName := "Termination",
          confidence := none, riskScore := 20, riskFlags := [],
          riskReasoning := "Standard notice period.",
          clauseSubtype := none })],
      vectorChunks := [(10,
        { chunkId := "c1",
          text := "Either party may terminate with notice.",
          pageNumber := 3, sectionName := "Termination" })] }
    7 10 { id := 10, workspaceId := 1, status := .processed }
    { id := 1, userId := 7 } (by decide) (by decide) rfl (by decide) (by decide)

theorem dedupInner_subset (cs : List XClause) (d : XClause → XClause → Bool)
    (idx1 : Nat) : ∀ (js : List Nat) (keep : Finset Nat),
    dedupInner cs d idx1 js keep ⊆ keep := by
  intro js
  induction js with
  | nil => intro keep; exact fun a ha => ha
  | cons j rest ih =>
      intro keep
      unfold dedupInner
      by_cases hj : j ∈ keep
      · rw [if_neg (by simpa using hj)]
        by_cases hdup : areClausesDuplicate d (cs.getD idx1 default)
            (cs.getD j default)
        · rw [if_pos hdup]
          by_cases hbet : isClauseBetter (cs.getD idx1 default)
              (cs.getD j default) = true
          · rw [if_pos hbet]
            exact (ih (keep.erase j)).trans (Finset.erase_subset j keep)
          · rw [if_neg hbet]
            exact Finset.erase_subset idx1 keep
        · rw [if_neg hdup]
          exact ih keep
      · rw [if_pos (by simpa using hj)]
        exact ih keep

theorem dedupOuter_subset (cs : List XClause) (d : XClause → XClause → Bool) :
    ∀ (g : List Nat) (keep : Finset Nat), dedupOuter cs d g keep ⊆ keep := by
  intro g
  induction g with
  | nil => intro keep; exact fun a ha => ha
  | cons i rest ih =>
      intro keep
      unfold dedupOuter
      by_cases hi : i ∈ keep
      · rw [if_neg (by simpa using hi)]
        exact (ih (dedupInner cs d i rest keep)).trans
          (dedupInner_subset cs d i rest keep)
      · rw [if_pos (by simpa using hi)]
        exact ih keep

theorem dedupFold_subset (cs : List XClause) (d : XClause → XClause → Bool) :
    ∀ (groups : List (List Nat)) (keep : Finset Nat),
    groups.foldl (fun k g => dedupOuter cs d g k) keep ⊆ keep := by
  intro groups
  induction groups with
  | nil => intro keep; exact fun a ha => ha
  | cons g gs ih =>
      intro keep
      exact (ih (dedupOuter cs d g keep)).trans (dedupOuter_subset cs d g keep)

theorem dedupInner_safe (cs : List XClause) (d : XClause → XClause → Bool)
    (idx1 b : Nat) : ∀ (js : List Nat) (keep : Finset Nat),
    idx1 ∈ dedupInner cs d idx1 js keep → b ∈ dedupInner cs d idx1 js keep →
    b ∈ js →
    areClausesDuplicate d (cs.getD idx1 default) (cs.getD b default) = false := by
  intro js
  induction js with
  | nil => intro keep _ _ hb; cases hb
  | cons j rest ih =>
      intro keep h1 hb hbj
      unfold dedupInner at h1 hb
      by_cases hj : j ∈ keep
      · rw [if_neg (by simpa using hj)] at h1 hb
        by_cases hdup : areClausesDuplicate d (cs.getD idx1 default)
            (cs.getD j default)
        · rw [if_pos hdup] at h1 hb
          by_cases hbet : isClauseBetter (cs.getD idx1 default)
              (cs.getD j default) = true
          · rw [if_pos hbet] at h1 hb
            rcases List.mem_cons.mp hbj with hbj' | hbj'
            · subst hbj'
              exact absurd (dedupInner_subset cs d idx1 rest (keep.erase b) hb)
                (Finset.not_mem_erase b keep)
            · exact ih (keep.erase j) h1 hb hbj'
          · rw [if_neg hbet] at h1
            exact absurd rfl (Finset.ne_of_mem_erase h1)
        · rw [if_neg hdup] at h1 hb
          rcases List.mem_cons.mp hbj with hbj' | hbj'
          · subst hbj'
            simpa using hdup
          · exact ih keep h1 hb hbj'
      · rw [if_pos (by simpa using hj)] at h1 hb
        rcases List.mem_cons.mp hbj with hbj' | hbj'
        · subst hbj'
          exact absurd (dedupInner_subset cs d idx1 rest keep hb) hj
        · exact ih keep h1 hb hbj'

theorem dedupOuter_safe (cs : List XClause) (d : XClause → XClause → Bool)
    (a b : Nat) : ∀ (g : List Nat) (keep : Finset Nat),
    [a, b].Sublist g → a ∈ dedupOuter cs d g keep →
    b ∈ dedupOuter cs d g keep →
    areClausesDuplicate d (cs.getD a default) (cs.getD b default) = false := by
  intro g
  induction g with
  | nil => intro keep hsub _ _; cases hsub
  | cons i rest ih =>
      intro keep hsub ha hb
      rcases List.sublist_cons_iff.mp hsub with hsub' | ⟨r, hr, hrsub⟩
      · unfold dedupOuter at ha hb
        by_cases hi : i ∈ keep
        · rw [if_neg (by simpa using hi)] at ha hb
          exact ih _ hsub' ha hb
        · rw [if_pos (by simpa using hi)] at ha hb
          exact ih _ hsub' ha hb
      · have hai : a = i := by
          have := congrArg (fun l => l.headD 0) hr
          simpa using this
        have hbr : b ∈ rest := by
          have htl : r = [b] := by
            simpa using (congrArg List.tail hr).symm
          rw [htl] at hrsub
          exact List.singleton_sublist.mp hrsub
        subst hai
        unfold dedupOuter at ha hb
        by_cases hi : a ∈ keep
        · rw [if_neg (by simpa using hi)] at ha hb
          have ha' := dedupOuter_subset cs d rest _ ha
          have hb' := dedupOuter_subset cs d rest _ hb
          exact dedupInner_safe cs d a b rest keep ha' hb' hbr
        · rw [if_pos (by simpa using hi)] at ha hb
          exact absurd (dedupOuter_subset cs d rest keep ha) hi

theorem dedupFold_safe (cs : List XClause) (d : XClause → XClause → Bool)
    (a b : Nat) : ∀ (groups : List (List Nat)) (keep : Finset Nat) (g : List Nat),
    g ∈ groups → [a, b].Sublist g →
    a ∈ groups.foldl (fun k g => dedupOuter cs d g k) keep →
    b ∈ groups.foldl (fun k g => dedupOuter cs d g k) keep →
    areClausesDuplicate d (cs.getD a default) (cs.getD b default) = false := by
  intro groups
  induction groups with
  | nil => intro keep g hg; cases hg
  | cons g0 gs ih =>
      intro keep g hg hsub ha hb
      rcases List.mem_cons.mp hg with hg' | hg'
      · subst hg'
        have ha' := dedupFold_subset cs d gs (dedupOuter cs d g keep) ha
        have hb' := dedupFold_subset cs d gs (dedupOuter cs d g keep) hb
        exact dedupOuter_safe cs d a b g keep hsub ha' hb'
      · exact ih (dedupOuter cs d g0 keep) g hg' hsub ha hb

theorem mem_foldl_insert (l : List (String × Nat)) :
    ∀ (acc : List (String × Nat)) (x : String × Nat),
    x ∈ l.foldl (fun acc k => if k ∈ acc then acc else acc ++ [k]) acc ↔
      (x ∈ acc ∨ x ∈ l) := by
  induction l with
  | nil => intro acc x; simp
  | cons k rest ih =>
      intro acc x
      rw [List.foldl_cons]
      by_cases hk : k ∈ acc
      · rw [if_pos hk, ih]
        constructor
        · rintro (h | h)
          · exact Or.inl h
          · exact Or.inr (List.mem_cons_of_mem _ h)
        · rintro (h | h)
          · exact Or.inl h
          · rcases List.mem_cons.mp h with rfl | h'
            · exact Or.inl hk
            · exact Or.inr h'
      · rw [if_neg hk, ih]
        simp only [List.mem_append, List.mem_singleton, List.mem_cons]
        tauto

theorem mem_allGroupKeys {cs : List XClause} {k : String × Nat} :
    k ∈ allGroupKeys cs ↔ ∃ c ∈ cs, k ∈ groupKeysOf c := by
  unfold allGroupKeys firstOccDedup
  rw [mem_foldl_insert]
  simp [List.mem_flatMap]

theorem mem_groupKeysOf {k : String × Nat} {c : XClause} :
    k ∈ groupKeysOf c ↔
      (k.1 = c.clauseType ∧
        (k.2 = c.pageNumber ∨ (0 < c.pageNumber ∧ k.2 = c.pageNumber - 1) ∨
          k.2 = c.pageNumber + 1)) := by
  unfold groupKeysOf
  by_cases hp : 0 < c.pageNumber
  · simp only [hp, if_true, List.mem_append, List.mem_singleton, Prod.ext_iff]
    tauto
  · simp only [hp, if_false, List.mem_append, List.mem_singleton,
      List.not_mem_nil, Prod.ext_iff, false_or]
    tauto

theorem shared_key_comparable {k : String × Nat} {c1 c2 : XClause}
    (h1 : k ∈ groupKeysOf c1) (h2 : k ∈ groupKeysOf c2) :
    c1.clauseType = c2.clauseType ∧
      Nat.dist c1.pageNumber c2.pageNumber ≤ 2 := by
  rw [mem_groupKeysOf] at h1 h2
  refine ⟨h1.1.symm.trans h2.1, ?_⟩
  rcases h1.2 with ha | ⟨hp, ha⟩ | ha <;>
    rcases h2.2 with hb | ⟨hq, hb⟩ | hb <;>
      (simp only [Nat.dist]; omega)

theorem shared_key_exists {c1 c2 : XClause}
    (ht : c1.clauseType = c2.clauseType)
    (hd : Nat.dist c1.pageNumber c2.pageNumber ≤ 2) :
    ∃ k, k ∈ groupKeysOf c1 ∧ k ∈ groupKeysOf c2 := by
  have hd' : c1.pageNumber - c2.pageNumber + (c2.pageNumber - c1.pageNumber)
      ≤ 2 := by
    simpa [Nat.dist] using hd
  rcases Nat.lt_trichotomy c1.pageNumber c2.pageNumber with h | h | h
  · refine ⟨(c1.clauseType, c2.pageNumber - 1), ?_, ?_⟩
    · rw [mem_groupKeysOf]
      refine ⟨rfl, ?_⟩
      rcases Nat.lt_or_ge (c1.pageNumber + 1) c2.pageNumber with h2 | h2
      · right; right; omega
      · left; omega
    · rw [mem_groupKeysOf]
      exact ⟨ht, Or.inr (Or.inl ⟨by omega, rfl⟩)⟩
  · refine ⟨(c1.clauseType, c1.pageNumber), ?_, ?_⟩
    · rw [mem_groupKeysOf]
      exact ⟨rfl, Or.inl rfl⟩
    · rw [mem_groupKeysOf]
      exact ⟨ht, Or.inl (by omega)⟩
  · refine ⟨(c1.clauseType, c1.pageNumber - 1), ?_, ?_⟩
    · rw [mem_groupKeysOf]
      exact ⟨rfl, Or.inr (Or.inl ⟨by omega, rfl⟩)⟩
    · rw [mem_groupKeysOf]
      refine ⟨ht, ?_⟩
      rcases Nat.lt_or_ge (c2.pageNumber + 1) c1.pageNumber with h2 | h2
      · right; right; omega
      · left; omega

theorem pair_sublist_range {a b n : Nat} (hab : a < b) (hbn : b < n) :
    [a, b].Sublist (List.range n) := by
  obtain ⟨m, rfl⟩ : ∃ m, n = (b + 1) + m := ⟨n - (b + 1), by omega⟩
  rw [List.range_add]
  have h2 : [a, b].Sublist (List.range (b + 1)) := by
    rw [show b + 1 = Nat.succ b from rfl, List.range_succ]
    have ha : [a].Sublist (List.range b) :=
      List.singleton_sublist.mpr (List.mem_range.mpr hab)
    exact ha.append (List.Sublist.refl [b])
  exact h2.trans (List.sublist_append_left _ _)

theorem pair_in_clauseGroups {cs : List XClause} {a b : Nat} (hab : a < b)
    (hbn : b < cs.length)
    (ht : (cs.getD a default).clauseType = (cs.getD b default).clauseType)
    (hd : Nat.dist (cs.getD a default).pageNumber
      (cs.getD b default).pageNumber ≤ 2) :
    ∃ g ∈ clauseGroups cs, [a, b].Sublist g := by
  rcases shared_key_exists ht hd with ⟨k, hk1, hk2⟩
  have han : a < cs.length := lt_trans hab hbn
  have hkall : k ∈ allGroupKeys cs := by
    rw [mem_allGroupKeys]
    refine ⟨cs.getD a default, ?_, hk1⟩
    rw [List.getD_eq_getElem _ _ han]
    exact List.getElem_mem han
  refine ⟨(List.range cs.length).filter
      (fun i => decide (k ∈ groupKeysOf (cs.getD i default))), ?_, ?_⟩
  · unfold clauseGroups
    exact List.mem_map.mpr ⟨k, hkall, rfl⟩
  · have hsub := (pair_sublist_range hab hbn).filter
      (fun i => decide (k ∈ groupKeysOf (cs.getD i default)))
    rwa [show ([a, b].filter
        (fun i => decide (k ∈ groupKeysOf (cs.getD i default)))) = [a, b] from
      List.filter_eq_self.mpr (by
        intro x hx
        rcases List.mem_cons.mp hx with rfl | hx'
        · exact decide_eq_true hk1
        · rcases List.mem_cons.mp hx' with rfl | hx''
          · exact decide_eq_true hk2
          · cases hx'')] at hsub

theorem not_comparable_not_dup {d : XClause → XClause → Bool} {c1 c2 : XClause}
    (h : ¬(c1.clauseType = c2.clauseType ∧
      Nat.dist c1.pageNumber c2.pageNumber ≤ 2)) :
    areClausesDuplicate d c1 c2 = false := by
  unfold areClausesDuplicate
  by_cases h1 : c1.clauseType = c2.clauseType
  · rw [if_neg (by simpa using h1)]
    have h2 : 2 < Nat.dist c1.pageNumber c2.pageNumber := by
      rcases not_and_or.mp h with h' | h'
      · exact absurd h1 h'
      · omega
    rw [if_pos h2]
  · rw [if_pos (by simpa using h1)]

theorem dedupInner_id (cs : List XClause) (d : XClause → XClause → Bool)
    (idx1 : Nat) : ∀ (js : List Nat) (keep : Finset Nat),
    (∀ j ∈ js, areClausesDuplicate d (cs.getD idx1 default)
      (cs.getD j default) = false) →
    dedupInner cs d idx1 js keep = keep := by
  intro js
  induction js with
  | nil => intro keep _; rfl
  | cons j rest ih =>
      intro keep h
      unfold dedupInner
      have hj := h j (List.mem_cons_self j rest)
      by_cases hjk : j ∈ keep
      · rw [if_neg (by simpa using hjk),
          if_neg (by rw [hj]; exact Bool.false_ne_true)]
        exact ih keep (fun x hx => h x (List.mem_cons_of_mem _ hx))
      · rw [if_pos (by simpa using hjk)]
        exact ih keep (fun x hx => h x (List.mem_cons_of_mem _ hx))

theorem dedupOuter_id (cs : List XClause) (d : XClause → XClause → Bool) :
    ∀ (g : List Nat) (keep : Finset Nat),
    (∀ x y, [x, y].Sublist g → areClausesDuplicate d (cs.getD x default)
      (cs.getD y default) = false) →
    dedupOuter cs d g keep = keep := by
  intro g
  induction g with
  | nil => intro keep _; rfl
  | cons i rest ih =>
      intro keep h
      unfold dedupOuter
      have hrest : ∀ x y, [x, y].Sublist rest →
          areClausesDuplicate d (cs.getD x default) (cs.getD y default)
            = false :=
        fun x y hxy => h x y (hxy.cons i)
      by_cases hik : i ∈ keep
      · rw [if_neg (by simpa using hik)]
        rw [dedupInner_id cs d i rest keep (fun j hj =>
          h i j (List.Sublist.cons₂ i (List.singleton_sublist.mpr hj)))]
        exact ih keep hrest
      · rw [if_pos (by simpa using hik)]
        exact ih keep hrest

theorem dedupFold_id (cs : List XClause) (d : XClause → XClause → Bool) :
    ∀ (groups : List (List Nat)) (keep : Finset Nat),
    (∀ g ∈ groups, ∀ x y, [x, y].Sublist g →
      areClausesDuplicate d (cs.getD x default) (cs.getD y default) = false) →
    groups.foldl (fun k g => dedupOuter cs d g k) keep = keep := by
  intro groups
  induction groups with
  | nil => intro keep _; rfl
  | cons g0 gs ih =>
      intro keep h
      rw [List.foldl_cons,
        dedupOuter_id cs d g0 keep (h g0 (List.mem_cons_self g0 gs))]
      exact ih keep (fun g hg => h g (List.mem_cons_of_mem _ hg))

theorem map_getD_range (l : List XClause) :
    (List.range l.length).map (fun i => l.getD i default) = l := by
  apply List.ext_getElem
  · simp
  · intro n h1 h2
    simp only [List.getElem_map, List.getElem_range]
    exact List.getD_eq_getElem l default h2

theorem clauseGroups_pairs_lt {cs : List XClause} {g : List Nat}
    (hg : g ∈ clauseGroups cs) :
    List.Pairwise (· < ·) g ∧ ∀ i ∈ g, i < cs.length := by
  unfold clauseGroups at hg
  rcases List.mem_map.mp hg with ⟨k, _, rfl⟩
  constructor
  · exact (List.pairwise_lt_range cs.length).filter _
  · intro i hi
    exact List.mem_range.mp (List.mem_filter.mp hi).1

theorem deduplicateClauses_short (d : XClause → XClause → Bool)
    (cs : List XClause) (h : cs.length ≤ 1) :
    deduplicateClauses d cs = cs := by
  unfold deduplicateClauses
  rw [if_pos h]

theorem deduplicateClauses_eq (d : XClause → XClause → Bool)
    (cs : List XClause) (h : ¬ cs.length ≤ 1) :
    deduplicateClauses d cs
      = ((List.range cs.length).filter (fun i =>
          decide (i ∈ (clauseGroups cs).foldl
            (fun k g => dedupOuter cs d g k) (Finset.range cs.length)))).map
        (fun i => cs.getD i default) := by
  unfold deduplicateClauses
  rw [if_neg h]

/-- C7: running the deduplicator on the output of the deduplicator returns
that output unchanged, assuming the pairwise duplicate decision `d` behaves
as a fixed deterministic function of the two clauses. -/
theorem deduplicate_clauses_idempotent (d : XClause → XClause → Bool)
    (cs : List XClause) :
    deduplicateClauses d (deduplicateClauses d cs) = deduplicateClauses d cs := by
  by_cases hS1 : (deduplicateClauses d cs).length ≤ 1
  · exact deduplicateClauses_short d _ hS1
  · have hcs1 : ¬ cs.length ≤ 1 := fun hc =>
      hS1 (by rw [deduplicateClauses_short d cs hc]; exact hc)
    have hSmap := deduplicateClauses_eq d cs hcs1
    set K := (clauseGroups cs).foldl (fun k g => dedupOuter cs d g k)
      (Finset.range cs.length) with hK
    set idxs := (List.range cs.length).filter (fun i => decide (i ∈ K))
      with hidxs
    set S := deduplicateClauses d cs with hS
    have hlen : S.length = idxs.length := by rw [hSmap, List.length_map]
    have hidx_lt : ∀ i ∈ idxs, i < cs.length := by
      intro i hi
      exact List.mem_range.mp (List.mem_filter.mp hi).1
    have hidx_K : ∀ i ∈ idxs, i ∈ K := by
      intro i hi
      simpa using (List.mem_filter.mp hi).2
    have hidx_sorted : List.Pairwise (· < ·) idxs :=
      (List.pairwise_lt_range cs.length).filter _
    have hget : ∀ x (hx : x < idxs.length),
        S.getD x default = cs.getD (idxs[x]) default := by
      intro x hx
      have hxS : x < S.length := by rw [hlen]; exact hx
      rw [List.getD_eq_getElem S default hxS]
      rw [List.getElem_of_eq hSmap hxS]
      exact List.getElem_map _
    -- every ordered pair of surviving clauses is duplicate-free
    have hSafe : ∀ x y, x < y → y < idxs.length →
        areClausesDuplicate d (S.getD x default) (S.getD y default)
          = false := by
      intro x y hxy hy
      have hx : x < idxs.length := lt_trans hxy hy
      rw [hget x hx, hget y hy]
      have ha := List.getElem_mem (l := idxs) hx
      have hb := List.getElem_mem (l := idxs) hy
      have hab : idxs[x] < idxs[y] :=
        (List.pairwise_iff_getElem.mp hidx_sorted) x y hx hy hxy
      by_cases hcomp : (cs.getD (idxs[x]) default).clauseType
          = (cs.getD (idxs[y]) default).clauseType ∧
          Nat.dist (cs.getD (idxs[x]) default).pageNumber
            (cs.getD (idxs[y]) default).pageNumber ≤ 2
      · rcases pair_in_clauseGroups hab (hidx_lt _ hb) hcomp.1 hcomp.2
          with ⟨g, hgmem, hgsub⟩
        exact dedupFold_safe cs d (idxs[x]) (idxs[y]) (clauseGroups cs)
          (Finset.range cs.length) g hgmem hgsub (hidx_K _ ha) (hidx_K _ hb)
      · exact not_comparable_not_dup hcomp
    -- the second pass removes nothing
    have hfold : (clauseGroups S).foldl (fun k g => dedupOuter S d g k)
        (Finset.range S.length) = Finset.range S.length := by
      apply dedupFold_id
      intro g hg x y hxy
      rcases clauseGroups_pairs_lt hg with ⟨hgp, hglt⟩
      have hxg : x ∈ g := hxy.subset (List.mem_cons_self x [y])
      have hyg : y ∈ g := hxy.subset (List.mem_cons_of_mem x
        (List.mem_cons_self y []))
      have hxylt : x < y := by
        have := hgp.sublist hxy
        exact List.rel_of_pairwise_cons this (List.mem_singleton.mpr rfl)
      have hyn : y < S.length := hglt y hyg
      rw [hlen] at hyn
      exact hSafe x y hxylt hyn
    have hfilter : (List.range S.length).filter
        (fun i => decide (i ∈ Finset.range S.length)) = List.range S.length :=
      List.filter_eq_self.mpr (fun i hi => by
        simpa using Finset.mem_range.mpr (List.mem_range.mp hi))
    rw [deduplicateClauses_eq d S hS1, hfold, hfilter, map_getD_range]

end ContractIQ
